import Mathlib

/-!
Verification development for the deep-research agent orchestrator
(`ymeskini/ai-app`).  The definitions below are a shallow embedding of the
TypeScript sources: the per-request `SystemContext`, the agent loop driver
(`src/lib/run-agent-loop.ts`), the search/scrape/summarize pipeline, the
Redis-backed result cache (`src/server/redis/redis.ts`), the global
sliding-window rate limiter (`src/server/redis/global-rate-limit.ts`), the
Jina scrape adapter (`src/lib/jina-scraper.ts`) and the per-user daily rate
limit plus the admission fragment of the chat route
(`src/app/api/chat/route.ts`).  External effects (LLM calls, the search
provider, the scraper, the wall clock and Redis itself) are passed in as
explicit oracle arguments or explicit state, so every function here is a
pure, executable translation of the corresponding source function.
-/

set_option maxRecDepth 4096

/-! ## Data model (`src/lib/system-context.ts`) -/

/-- `SearchResult` from `system-context.ts`: `summary` is an optional field
in TypeScript (`summary?: string`), modelled as `Option String`. -/
structure SearchResult where
  date : String
  title : String
  url : String
  snippet : String
  scrapedContent : String
  summary : Option String := none
  deriving Repr, DecidableEq

/-- `SearchHistoryEntry` from `system-context.ts`. -/
structure SearchHistoryEntry where
  query : String
  results : List SearchResult
  deriving Repr, DecidableEq

/-- `QueryResultSearchResult` from `system-context.ts` (the shape produced
by the search provider before scraping). -/
structure QueryResultSearchResult where
  date : String
  title : String
  url : String
  snippet : String
  deriving Repr, DecidableEq

/-- One chat message, reduced to the fields the embedded code reads. -/
structure ChatMessage where
  role : String
  content : String
  deriving Repr, DecidableEq

/-- The per-request mutable state object (`class SystemContext`).  The
TypeScript constructor initializes `step = 0` and `searchHistory = []`. -/
structure SystemContext where
  locationContext : String
  messages : List ChatMessage
  step : Nat := 0
  searchHistory : List SearchHistoryEntry := []
  deriving Repr, DecidableEq

/-- `new SystemContext(locationContext, messages)`. -/
def SystemContext.init (locationContext : String) (messages : List ChatMessage) :
    SystemContext :=
  { locationContext := locationContext, messages := messages }

/-- `shouldStop()` returns `this.step >= 10` (the bound is hardcoded). -/
def SystemContext.shouldStop (ctx : SystemContext) : Bool :=
  ctx.step ≥ 10

/-- `getStep()`. -/
def SystemContext.getStep (ctx : SystemContext) : Nat :=
  ctx.step

/-- `incrementStep()` does `this.step++`. -/
def SystemContext.incrementStep (ctx : SystemContext) : SystemContext :=
  { ctx with step := ctx.step + 1 }

/-- `reportSearch(search)` does `this.searchHistory.push(search)` — the
entry is appended exactly as given; no deduplication of any kind. -/
def SystemContext.reportSearch (ctx : SystemContext) (search : SearchHistoryEntry) :
    SystemContext :=
  { ctx with searchHistory := ctx.searchHistory ++ [search] }

/-- All URLs appearing across the aggregate `searchHistory`, in order. -/
def SystemContext.allUrls (ctx : SystemContext) : List String :=
  (ctx.searchHistory.map (fun e => e.results.map (fun r => r.url))).flatten

/-! ## Agent loop driver (`src/lib/run-agent-loop.ts`, `runAgentLoop`)

The loop's external decision points are resolved by a per-step oracle:
`rewriter` is the settled outcome of `queryRewriter` (`Except.error` models
a rejected promise), `queryOutcomes` is the settled result of each query's
`searchAndScrape` call in input order (`none` models the per-query `catch`
branch that returns `null`), and `evalOutcome` is the settled outcome of
`getNextAction`.  Message-annotation writes are pure stream effects and do
not influence the state, so they are not part of the state model. -/

/-- The evaluator's action: `type` is the TypeScript tag
(`"continue" | "answer"`). -/
structure NextActionT where
  type : String
  title : String
  reasoning : String
  feedback : String
  deriving Repr, DecidableEq

/-- Settled outcomes of one loop iteration's external calls. -/
structure StepInput where
  rewriter : Except String (String × List String)
  queryOutcomes : List (Option SearchHistoryEntry)
  evalOutcome : Except String NextActionT
  deriving Repr

/-- Result of a run: `answered ctx isFinal` models reaching
`answerQuestion(ctx, …)` with the given `isFinal` flag (absent = `false`);
`errored` models the rethrown error that aborts the loop. -/
inductive LoopResult where
  | answered (ctx : SystemContext) (isFinal : Bool)
  | errored (ctx : SystemContext) (msg : String)
  deriving Repr, DecidableEq

/-- The context a run ends with. -/
def LoopResult.finalCtx : LoopResult → SystemContext
  | .answered ctx _ => ctx
  | .errored ctx _ => ctx

/-- The `isFinal` flag handed to `answerQuestion`, when it was reached. -/
def LoopResult.isFinalFlag : LoopResult → Option Bool
  | .answered _ b => some b
  | .errored _ _ => none

/-- `searchResults.forEach((result) => { if (result) ctx.reportSearch(result) })`:
successful entries are recorded in input order, failed ones are skipped. -/
def reportAll (ctx : SystemContext) (rs : List (Option SearchHistoryEntry)) :
    SystemContext :=
  rs.foldl
    (fun c r =>
      match r with
      | some e => c.reportSearch e
      | none => c)
    ctx

theorem reportAll_step (ctx : SystemContext) (rs : List (Option SearchHistoryEntry)) :
    (reportAll ctx rs).step = ctx.step := by
  induction rs generalizing ctx with
  | nil => rfl
  | cons r rs ih =>
    cases r with
    | some e => simpa [reportAll, SystemContext.reportSearch] using ih _
    | none => simpa [reportAll] using ih _

theorem reportAll_searchHistory (ctx : SystemContext)
    (rs : List (Option SearchHistoryEntry)) :
    (reportAll ctx rs).searchHistory = ctx.searchHistory ++ rs.filterMap id := by
  induction rs generalizing ctx with
  | nil => simp [reportAll]
  | cons r rs ih =>
    cases r with
    | some e =>
      simp only [reportAll, List.foldl_cons] at *
      rw [ih]
      simp [SystemContext.reportSearch]
    | none =>
      simp only [reportAll, List.foldl_cons] at *
      rw [ih]
      simp

/-- The `while (ctx.getStep() < maxSteps)` loop of `runAgentLoop`, starting
from an arbitrary context.  Body: run `queryRewriter` (a rejection is
rethrown and aborts), record the successful fan-out results, run
`getNextAction` (a rejection is rethrown and aborts), then either loop
after `ctx.incrementStep()` (action `"continue"`) or return
`answerQuestion(ctx, …)` with `isFinal` absent (action `"answer"`).  When
the guard fails the driver returns `answerQuestion(ctx, { isFinal: true })`. -/
def runLoopFrom (steps : Nat → StepInput) (maxSteps : Nat) (ctx : SystemContext) :
    LoopResult :=
  if _h : ctx.getStep < maxSteps then
    match (steps ctx.getStep).rewriter with
    | Except.error e => LoopResult.errored ctx e
    | Except.ok _ =>
      let ctx1 := reportAll ctx (steps ctx.getStep).queryOutcomes
      match (steps ctx.getStep).evalOutcome with
      | Except.error e => LoopResult.errored ctx1 e
      | Except.ok a =>
        if a.type = "continue" then runLoopFrom steps maxSteps ctx1.incrementStep
        else if a.type = "answer" then LoopResult.answered ctx1 false
        else runLoopFrom steps maxSteps ctx1.incrementStep
  else
    LoopResult.answered ctx true
termination_by maxSteps - ctx.getStep
decreasing_by
  all_goals
    simp only [SystemContext.getStep, SystemContext.incrementStep, reportAll_step] at *
    omega

/-- `runAgentLoop` builds a fresh `SystemContext` and runs the loop. -/
def runAgentLoop (maxSteps : Nat) (steps : Nat → StepInput)
    (locationContext : String) (messages : List ChatMessage) : LoopResult :=
  runLoopFrom steps maxSteps (SystemContext.init locationContext messages)

/-- Default of the `maxSteps` parameter in `runAgentLoop` (`maxSteps = 10`). -/
def runAgentLoopDefaultMaxSteps : Nat := 10

/-- The `maxSteps` argument `streamFromDeepSearch` passes to `runAgentLoop`
(`runAgentLoop(queryString, 10, …)`). -/
def streamFromDeepSearchMaxSteps : Nat := 10

theorem runLoopFrom_stop (steps : Nat → StepInput) (maxSteps : Nat)
    (ctx : SystemContext) (h : ¬ ctx.getStep < maxSteps) :
    runLoopFrom steps maxSteps ctx = LoopResult.answered ctx true := by
  unfold runLoopFrom
  simp [h]

theorem runLoopFrom_go (steps : Nat → StepInput) (maxSteps : Nat)
    (ctx : SystemContext) (h : ctx.getStep < maxSteps) :
    runLoopFrom steps maxSteps ctx =
      match (steps ctx.getStep).rewriter with
      | Except.error e => LoopResult.errored ctx e
      | Except.ok _ =>
        match (steps ctx.getStep).evalOutcome with
        | Except.error e =>
            LoopResult.errored (reportAll ctx (steps ctx.getStep).queryOutcomes) e
        | Except.ok a =>
          if a.type = "continue" then
            runLoopFrom steps maxSteps
              (reportAll ctx (steps ctx.getStep).queryOutcomes).incrementStep
          else if a.type = "answer" then
            LoopResult.answered (reportAll ctx (steps ctx.getStep).queryOutcomes) false
          else
            runLoopFrom steps maxSteps
              (reportAll ctx (steps ctx.getStep).queryOutcomes).incrementStep := by
  conv_lhs => unfold runLoopFrom
  simp [h]

/-! ## Search + scrape + summarize fan-out
(`searchAndScrape` in `src/lib/run-agent-loop.ts`, `_summarizeURL` in
`src/lib/summarize-url.ts`)

The search provider's response, the bulk-crawl outcome and the summarizer
LLM are oracle arguments.  `today` stands for
`new Date().toISOString().split("T")[0]`. -/

/-- One entry of `searchResults.organic` as read by `searchAndScrape`
(`result.date` may be absent). -/
structure OrganicResult where
  title : String
  link : String
  snippet : String
  date : Option String
  deriving Repr, DecidableEq

/-- The `processedScrapeResults` record: built by iterating over the bulk
crawl's per-URL results and assigning `obj[url] = data` for each successful
scrape (later assignments overwrite earlier ones).  Each scrape outcome is
`(url, some data)` on success and `(url, none)` on failure; both branches
of the `scrapeResults.success` test execute the identical `forEach`. -/
def processedScrapeResults (scrapes : List (String × Option String)) :
    String → Option String :=
  scrapes.foldl
    (fun acc p =>
      match p.2 with
      | some data => fun u => if u = p.1 then some data else acc u
      | none => acc)
    (fun _ => none)

/-- The per-result summarization step of `searchAndScrape`: `summarizeURL`
is only called when `result.scrapedContent` is truthy and its trim is
non-empty; a rejected summarization keeps the original result; otherwise
the summary is attached.  A result that never reaches `summarizeURL` keeps
`summary` undefined. -/
def applySummary (summarize : SearchResult → Except Unit String)
    (r : SearchResult) : SearchResult :=
  if r.scrapedContent ≠ "" ∧ r.scrapedContent.trim.length > 0 then
    match summarize r with
    | Except.ok s => { r with summary := some s }
    | Except.error _ => r
  else r

/-- `searchAndScrape(query, …)`: map the organic hits to
`QueryResultSearchResult`s (defaulting `date` to today), scrape every URL,
combine (`scrapedContent = processedScrapeResults[url] ?? ""`), summarize
in parallel, and return the `SearchHistoryEntry`. -/
def searchAndScrape (query today : String) (organic : List OrganicResult)
    (scrapes : List (String × Option String))
    (summarize : SearchResult → Except Unit String) : SearchHistoryEntry :=
  let initialResults : List QueryResultSearchResult :=
    organic.map (fun r =>
      { title := r.title, url := r.link, snippet := r.snippet,
        date := r.date.getD today })
  let combinedResults : List SearchResult :=
    initialResults.map (fun r =>
      { date := r.date, title := r.title, url := r.url, snippet := r.snippet,
        scrapedContent := (processedScrapeResults scrapes r.url).getD "",
        summary := none })
  let resultsWithSummaries := combinedResults.map (applySummary summarize)
  { query := query, results := resultsWithSummaries }

/-- Return shape of `_summarizeURL`. -/
structure URLSummary where
  url : String
  title : String
  summary : String
  deriving Repr, DecidableEq

/-- The decision core of `_summarizeURL` (`src/lib/summarize-url.ts`): with
empty or whitespace-only `scrapedContent` it returns the snippet as the
summary without calling the LLM; otherwise it returns the LLM text, falling
back to the snippet when the LLM call rejects.  Note that `searchAndScrape`
never invokes it with empty content: its own guard skips summarization
first. -/
def summarizeURLPure (url title snippet scrapedContent : String)
    (llm : Except Unit String) : URLSummary :=
  if scrapedContent = "" ∨ scrapedContent.trim.length = 0 then
    { url := url, title := title, summary := snippet }
  else
    match llm with
    | Except.ok text => { url := url, title := title, summary := text }
    | Except.error _ => { url := url, title := title, summary := snippet }

/-! ## Result cache (`cacheWithRedis` in `src/server/redis/redis.ts`)

The Redis string store is a list of `(key, value, expiresAt)` entries read
relative to an explicit clock `now`; `SET key value EX ttl` makes the key
live for `ttl` seconds.  The wrapped function's argument list is already
serialized (`JSON.stringify(args)` = `argsJson`); `enc`/`dec` stand for
`JSON.stringify`/`JSON.parse` on the result value. -/

/-- One live Redis string entry. -/
structure KVEntry where
  key : String
  value : String
  expiresAt : Nat
  deriving Repr, DecidableEq

/-- The Redis string store. -/
abbrev KVStore := List KVEntry

/-- `GET key` at time `now`: an expired entry reads as null. -/
def kvGet (store : KVStore) (now : Nat) (k : String) : Option String :=
  match store.find? (fun e => e.key == k) with
  | some e => if now < e.expiresAt then some e.value else none
  | none => none

/-- `SET key value EX ttl` at time `now`. -/
def kvSetEx (store : KVStore) (now : Nat) (k v : String) (ttl : Nat) : KVStore :=
  { key := k, value := v, expiresAt := now + ttl } :: store.filter (fun e => e.key != k)

/-- `CACHE_EXPIRY_SECONDS = 60 * 60 * 6`. -/
def CACHE_EXPIRY_SECONDS : Nat := 60 * 60 * 6

/-- `CACHE_KEY_SEPARATOR = ":"`. -/
def CACHE_KEY_SEPARATOR : String := ":"

/-- The derived cache key `keyPrefix + ":" + JSON.stringify(args)`. -/
def cacheKey (pre argsJson : String) : String :=
  pre ++ CACHE_KEY_SEPARATOR ++ argsJson

/-- Observable outcome of one call through the cache wrapper. -/
structure CacheOutcome (α : Type) where
  value : α
  store : KVStore
  invocations : Nat
  deriving Repr, DecidableEq

/-- One call through `cacheWithRedis(keyPrefix, fn)` on the happy path of
the store: `GET` the derived key; a truthy cached string (JavaScript
truthiness: non-null and non-empty) is decoded and returned without
invoking `fn`; otherwise `fn` is invoked once and the serialized result is
written with `EX CACHE_EXPIRY_SECONDS`. -/
def cacheWithRedis {α : Type} (pre argsJson : String) (fn : Unit → α)
    (enc : α → String) (dec : String → α) (now : Nat) (store : KVStore) :
    CacheOutcome α :=
  let key := cacheKey pre argsJson
  match kvGet store now key with
  | some cached =>
    if cached ≠ "" then
      { value := dec cached, store := store, invocations := 0 }
    else
      let result := fn ()
      { value := result,
        store := kvSetEx store now key (enc result) CACHE_EXPIRY_SECONDS,
        invocations := 1 }
  | none =>
    let result := fn ()
    { value := result,
      store := kvSetEx store now key (enc result) CACHE_EXPIRY_SECONDS,
      invocations := 1 }

/-- `cacheWithRedis` with fallible store operations.  The source has no
`try`/`catch`: a rejected `await redis.get(key)` rejects the wrapper before
`fn` runs, and a rejected `await redis.set(…)` rejects the wrapper after
`fn` ran.  The pair's second component counts invocations of `fn`. -/
def cacheWithRedisFallible {α : Type} (getOutcome : Except String (Option String))
    (fn : Unit → α) (dec : String → α) (setOutcome : Except String Unit) :
    Except String α × Nat :=
  match getOutcome with
  | Except.error e => (Except.error e, 0)
  | Except.ok cachedResult =>
    match cachedResult with
    | some cached =>
      if cached ≠ "" then (Except.ok (dec cached), 0)
      else
        match setOutcome with
        | Except.error e => (Except.error e, 1)
        | Except.ok _ => (Except.ok (fn ()), 1)
    | none =>
      match setOutcome with
      | Except.error e => (Except.error e, 1)
      | Except.ok _ => (Except.ok (fn ()), 1)

/-! ## Global sliding-window rate limit
(`src/server/redis/global-rate-limit.ts`, `checkGlobalRateLimit`)

`checkGlobalRateLimit` reads the current window's counter and returns
`allowed = count < maxRequests` together with a `retry` closure.  The
closure captures its own `allowed` flag and a mutable `retryCount`
initialized to `0`.  When denied, `retry()` waits until the window reset,
calls `checkGlobalRateLimit` again — which builds a *fresh* closure whose
`retryCount` restarts at `0` — and, if still denied, compares the *current*
closure's `retryCount` against `maxRetries` before delegating to the fresh
closure's `retry`.  `retryAux` is that recursion: `allowed` is the flag the
closure captured, `retryCount` its counter, and `checks` the sequence of
outcomes the store would give to successive re-checks (the recursion
consumes one per re-check).  The result is `some (b, n)` when the chain
returns `b` after `n` re-checks, and `none` when the supplied sequence is
exhausted with the chain still recursing. -/
def retryAux (maxRetries : Nat) (allowed : Bool) (retryCount : Nat) :
    List Bool → Option (Bool × Nat)
  | [] => if allowed then some (true, 0) else none
  | allowed2 :: rest =>
    if allowed then some (true, 0)
    else if allowed2 then some (true, 1)
    else if retryCount ≥ maxRetries then some (false, 1)
    else
      match retryAux maxRetries allowed2 0 rest with
      | some (b, n) => some (b, n + 1)
      | none => none

/-- Result record of `checkGlobalRateLimit` (without the closure). -/
structure RateLimitResult where
  allowed : Bool
  remaining : Nat
  resetTime : Nat
  totalHits : Nat
  deriving Repr, DecidableEq

/-- The pure part of `checkGlobalRateLimit`: window arithmetic and the
returned record, given the counter value `count` read from the store
(`Math.max(0, maxRequests - count)` coincides with truncated `Nat`
subtraction). -/
def checkGlobalRateLimitPure (maxRequests windowMs now count : Nat) :
    RateLimitResult :=
  let windowStart := now / windowMs * windowMs
  { allowed := count < maxRequests,
    remaining := maxRequests - count,
    resetTime := windowStart + windowMs,
    totalHits := count }

/-- The retry chain as entered by the route handler: the initial check read
`count0`, and `counts` are the counter values successive re-checks would
read. -/
def globalRateLimitRetry (maxRequests maxRetries : Nat) (count0 : Nat)
    (counts : List Nat) : Option (Bool × Nat) :=
  retryAux maxRetries (decide (count0 < maxRequests)) 0
    (counts.map (fun c => decide (c < maxRequests)))

/-! ## Jina scrape adapter (`src/lib/jina-scraper.ts`, `jinaCrawlWebsite`)

`fetchOutcomes i` tells whether the `i`-th call to `callJinaReaderAPI`
succeeds.  The trace records the number of fetch attempts performed, the
backoff delays slept (in order), and whether a success response was
returned. -/

/-- `DEFAULT_MAX_RETRIES = 3`. -/
def DEFAULT_MAX_RETRIES : Nat := 3

/-- `MIN_DELAY_MS = 500`. -/
def MIN_DELAY_MS : Nat := 500

/-- `MAX_DELAY_MS = 8000`. -/
def MAX_DELAY_MS : Nat := 8000

/-- Observable trace of one `jinaCrawlWebsite` call. -/
structure CrawlTrace where
  attempts : Nat
  delays : List Nat
  success : Bool
  deriving Repr, DecidableEq

/-- The `while (attempts < maxRetries)` loop of `jinaCrawlWebsite`: fetch;
on success return; increment `attempts`; if `attempts === maxRetries`
return the failure; otherwise sleep
`Math.min(MIN_DELAY_MS * Math.pow(2, attempts), MAX_DELAY_MS)` — computed
with the already-incremented `attempts` — and loop.  Falling out of the
loop (only possible when `maxRetries = 0`) returns the "Maximum retry
attempts reached" failure.  `a` is the running `attempts` counter, which
here equals the number of fetches performed so far. -/
def jinaCrawlGo (fetchOutcomes : Nat → Bool) (maxRetries : Nat) (a : Nat)
    (delays : List Nat) : CrawlTrace :=
  if _h : a < maxRetries then
    if fetchOutcomes a then
      { attempts := a + 1, delays := delays, success := true }
    else if a + 1 = maxRetries then
      { attempts := a + 1, delays := delays, success := false }
    else
      jinaCrawlGo fetchOutcomes maxRetries (a + 1)
        (delays ++ [min (MIN_DELAY_MS * 2 ^ (a + 1)) MAX_DELAY_MS])
  else
    { attempts := a, delays := delays, success := false }
termination_by maxRetries - a
decreasing_by omega

/-- `jinaCrawlWebsite({ url, maxRetries, … })`, starting from `attempts = 0`. -/
def jinaCrawlWebsite (maxRetries : Nat) (fetchOutcomes : Nat → Bool) : CrawlTrace :=
  jinaCrawlGo fetchOutcomes maxRetries 0 []

theorem jinaCrawlGo_stop (f : Nat → Bool) (mr a : Nat) (d : List Nat)
    (h : ¬ a < mr) :
    jinaCrawlGo f mr a d = { attempts := a, delays := d, success := false } := by
  unfold jinaCrawlGo
  simp [h]

theorem jinaCrawlGo_unfold (f : Nat → Bool) (mr a : Nat) (d : List Nat)
    (h : a < mr) :
    jinaCrawlGo f mr a d =
      if f a then { attempts := a + 1, delays := d, success := true }
      else if a + 1 = mr then { attempts := a + 1, delays := d, success := false }
      else jinaCrawlGo f mr (a + 1)
        (d ++ [min (MIN_DELAY_MS * 2 ^ (a + 1)) MAX_DELAY_MS]) := by
  conv_lhs => unfold jinaCrawlGo
  simp [h]

theorem jinaCrawlGo_attempts_le (f : Nat → Bool) (mr : Nat) :
    ∀ fuel a d, mr - a ≤ fuel → a ≤ mr →
      (jinaCrawlGo f mr a d).attempts ≤ mr := by
  intro fuel
  induction fuel with
  | zero =>
    intro a d hf ha
    have h : ¬ a < mr := by omega
    rw [jinaCrawlGo_stop f mr a d h]
    exact ha
  | succ n ih =>
    intro a d hf ha
    by_cases h : a < mr
    · rw [jinaCrawlGo_unfold f mr a d h]
      by_cases hs : f a
      · simp [hs]; omega
      · by_cases he : a + 1 = mr
        · simp [hs, he]
        · simp only [hs, he, if_false, Bool.false_eq_true]
          exact ih (a + 1) _ (by omega) (by omega)
    · rw [jinaCrawlGo_stop f mr a d h]
      exact ha

/-! ## Per-user daily rate limit and admin bypass
(`src/server/redis/redis.ts` and the admission fragment of
`src/app/api/chat/route.ts`)

The Redis string store is a plain key→value map here (TTLs do not matter
for the properties below), and every executed Redis command is appended to
an operation trace so that "never reads/writes the daily counter" is a
statement about the trace.  The `users` table is the oracle `dbName`
(`none` = no row, which makes `getUserName` throw). -/

/-- One executed Redis command. -/
inductive RedisOp where
  | get (key : String)
  | set (key : String) (value : String)
  | incr (key : String)
  | expire (key : String) (seconds : Nat)
  deriving Repr, DecidableEq

/-- The key a Redis command touches. -/
def RedisOp.opKey : RedisOp → String
  | .get k => k
  | .set k _ => k
  | .incr k => k
  | .expire k _ => k

/-- Store contents plus the trace of executed commands. -/
structure RedisState where
  store : List (String × String)
  ops : List RedisOp
  deriving Repr, DecidableEq

/-- Current value of a key. -/
def RedisState.lookup (st : RedisState) (k : String) : Option String :=
  (st.store.find? (fun p => p.1 == k)).map (fun p => p.2)

/-- `GET`, recorded in the trace. -/
def RedisState.doGet (st : RedisState) (k : String) : Option String × RedisState :=
  (st.lookup k, { st with ops := st.ops ++ [RedisOp.get k] })

/-- `SET`, recorded in the trace. -/
def RedisState.doSet (st : RedisState) (k v : String) : RedisState :=
  { store := (k, v) :: st.store.filter (fun p => p.1 != k),
    ops := st.ops ++ [RedisOp.set k v] }

/-- `DAILY_REQUEST_LIMIT = 5`. -/
def DAILY_REQUEST_LIMIT : Nat := 5

/-- `ADMIN_NAME = "sefyundercover"`. -/
def ADMIN_NAME : String := "sefyundercover"

/-- `isUserAdmin(name)` is `name === ADMIN_NAME` (`none` models `null`). -/
def isUserAdmin (name : Option String) : Bool :=
  name == some ADMIN_NAME

/-- The Redis key of the user-name cache. -/
def userNameKey (userId : String) : String :=
  "user:name:" ++ userId

/-- `getDailyRequestKey(userId)` for the day `today`
(`new Date().toISOString().split("T")[0]`). -/
def dailyRequestKey (userId today : String) : String :=
  "rate_limit:daily:" ++ userId ++ ":" ++ today

/-- `getUserName(userId)`: return the cached name if present, otherwise
read the `users` row (throwing when absent), cache it for an hour and
return it. -/
def getUserName (dbName : Option String) (userId : String) (st : RedisState) :
    Except String (String × RedisState) :=
  let r := st.doGet (userNameKey userId)
  match r.1 with
  | some cachedName => Except.ok (cachedName, r.2)
  | none =>
    match dbName with
    | none => Except.error ("User with ID " ++ userId ++ " not found")
    | some userName => Except.ok (userName, r.2.doSet (userNameKey userId) userName)

/-- Return shape of `checkRateLimit`. -/
structure RateLimitCheck where
  allowed : Bool
  remainingRequests : Nat
  isAdmin : Bool
  deriving Repr, DecidableEq

/-- `checkRateLimit(userId)`: resolve the user name; admins return
`{ allowed: true, remainingRequests: DAILY_REQUEST_LIMIT, isAdmin: true }`
before the daily counter is ever read; everyone else reads the counter and
compares it against the limit (`parseInt` on a counter value, `0` when the
key is absent; `Math.max(0, limit - count)` is truncated subtraction). -/
def checkRateLimit (dbName : Option String) (userId today : String)
    (st : RedisState) : Except String (RateLimitCheck × RedisState) :=
  match getUserName dbName userId st with
  | Except.error e => Except.error e
  | Except.ok (userName, st1) =>
    if isUserAdmin (some userName) then
      Except.ok
        ({ allowed := true, remainingRequests := DAILY_REQUEST_LIMIT,
           isAdmin := true }, st1)
    else
      let r := st1.doGet (dailyRequestKey userId today)
      let requestCount := (r.1.bind String.toNat?).getD 0
      Except.ok
        ({ allowed := requestCount < DAILY_REQUEST_LIMIT,
           remainingRequests := DAILY_REQUEST_LIMIT - requestCount,
           isAdmin := false }, r.2)

/-- `incrementRequestCount(userId)`: pipeline of `INCR` on the daily key
and `EXPIRE` until end of day; returns the new count. -/
def incrementRequestCount (userId today : String) (endOfDaySecs : Nat)
    (st : RedisState) : Nat × RedisState :=
  let key := dailyRequestKey userId today
  let newCount := ((st.lookup key).bind String.toNat?).getD 0 + 1
  (newCount,
    { store := (key, toString newCount) :: st.store.filter (fun p => p.1 != key),
      ops := st.ops ++ [RedisOp.incr key, RedisOp.expire key endOfDaySecs] })

/-- The per-user admission fragment of the chat route's `POST`: run
`checkRateLimit`; a denial returns the 429 response (`false`); otherwise
`incrementRequestCount` runs only when `isAdmin` is false, and the request
proceeds (`true`). -/
def handleUserRateLimit (dbName : Option String) (userId today : String)
    (endOfDaySecs : Nat) (st : RedisState) : Except String (Bool × RedisState) :=
  match checkRateLimit dbName userId today st with
  | Except.error e => Except.error e
  | Except.ok (check, st1) =>
    if !check.allowed then Except.ok (false, st1)
    else if !check.isAdmin then
      Except.ok (true, (incrementRequestCount userId today endOfDaySecs st1).2)
    else Except.ok (true, st1)

/-- `n` consecutive requests by the same user, threading the store. -/
def handleRequests (dbName : Option String) (userId today : String)
    (endOfDaySecs : Nat) : Nat → RedisState → Except String RedisState
  | 0, st => Except.ok st
  | n + 1, st =>
    match handleUserRateLimit dbName userId today endOfDaySecs st with
    | Except.error e => Except.error e
    | Except.ok (_, st1) => handleRequests dbName userId today endOfDaySecs n st1

/-- The name `getUserName` would resolve: the cached value if the cache key
is present, the `users` row otherwise. -/
def resolvedUserName (dbName : Option String) (userId : String)
    (st : RedisState) : Option String :=
  match st.lookup (userNameKey userId) with
  | some cachedName => some cachedName
  | none => dbName

/-! ## Loop invariants -/

/-- A loop iteration whose rewriter and evaluator both resolve, the
evaluator returning an action other than `"answer"`. -/
def stepContinues (s : StepInput) : Prop :=
  (∃ p, s.rewriter = Except.ok p) ∧
    ∃ a, s.evalOutcome = Except.ok a ∧ a.type ≠ "answer"

theorem runLoopFrom_cap (steps : Nat → StepInput) (maxSteps : Nat) :
    ∀ fuel ctx, maxSteps - ctx.getStep ≤ fuel → ctx.getStep ≤ maxSteps →
      (runLoopFrom steps maxSteps ctx).finalCtx.getStep ≤ maxSteps := by
  intro fuel
  induction fuel with
  | zero =>
    intro ctx hf hle
    have h : ¬ ctx.getStep < maxSteps := by omega
    rw [runLoopFrom_stop steps maxSteps ctx h]
    exact hle
  | succ n ih =>
    intro ctx hf hle
    by_cases h : ctx.getStep < maxSteps
    · rw [runLoopFrom_go steps maxSteps ctx h]
      have hstep :
          ((reportAll ctx (steps ctx.getStep).queryOutcomes).incrementStep).getStep =
            ctx.getStep + 1 := by
        simp [SystemContext.incrementStep, SystemContext.getStep, reportAll_step]
      have hrep : (reportAll ctx (steps ctx.getStep).queryOutcomes).getStep ≤ maxSteps := by
        simp only [SystemContext.getStep, reportAll_step]
        exact hle
      cases hrw : (steps ctx.getStep).rewriter with
      | error e => exact hle
      | ok p =>
        cases hev : (steps ctx.getStep).evalOutcome with
        | error e => exact hrep
        | ok a =>
          dsimp only
          by_cases hc : a.type = "continue"
          · rw [if_pos hc]
            refine ih _ ?_ ?_ <;> rw [hstep] <;> omega
          · rw [if_neg hc]
            by_cases ha : a.type = "answer"
            · rw [if_pos ha]
              exact hrep
            · rw [if_neg ha]
              refine ih _ ?_ ?_ <;> rw [hstep] <;> omega
    · rw [runLoopFrom_stop steps maxSteps ctx h]
      exact hle

theorem runLoopFrom_exhaust (steps : Nat → StepInput) (maxSteps : Nat) :
    ∀ fuel ctx, maxSteps - ctx.getStep ≤ fuel → ctx.getStep ≤ maxSteps →
      (∀ i, ctx.getStep ≤ i → i < maxSteps → stepContinues (steps i)) →
      (runLoopFrom steps maxSteps ctx).isFinalFlag = some true ∧
        (runLoopFrom steps maxSteps ctx).finalCtx.getStep = maxSteps := by
  intro fuel
  induction fuel with
  | zero =>
    intro ctx hf hle _hcont
    have h : ¬ ctx.getStep < maxSteps := by omega
    rw [runLoopFrom_stop steps maxSteps ctx h]
    exact ⟨rfl, by show ctx.getStep = maxSteps; omega⟩
  | succ n ih =>
    intro ctx hf hle hcont
    by_cases h : ctx.getStep < maxSteps
    · obtain ⟨⟨p, hrw⟩, a, hev, hne⟩ := hcont ctx.getStep le_rfl h
      rw [runLoopFrom_go steps maxSteps ctx h]
      have hstep :
          ((reportAll ctx (steps ctx.getStep).queryOutcomes).incrementStep).getStep =
            ctx.getStep + 1 := by
        simp [SystemContext.incrementStep, SystemContext.getStep, reportAll_step]
      have hcont2 :
          ∀ i, ((reportAll ctx (steps ctx.getStep).queryOutcomes).incrementStep).getStep ≤ i →
            i < maxSteps → stepContinues (steps i) := by
        intro i hi hlt
        exact hcont i (by omega) hlt
      rw [hrw, hev]
      dsimp only
      by_cases hc : a.type = "continue"
      · rw [if_pos hc]
        refine ih _ ?_ ?_ hcont2 <;> rw [hstep] <;> omega
      · rw [if_neg hc, if_neg hne]
        refine ih _ ?_ ?_ hcont2 <;> rw [hstep] <;> omega
    · rw [runLoopFrom_stop steps maxSteps ctx h]
      exact ⟨rfl, by show ctx.getStep = maxSteps; omega⟩

/-- C1: the agent loop executes its body only while the step counter is
strictly below `maxSteps` (at or past the cap it immediately returns the
final answer), each completed iteration increments the counter by one, and
when no evaluator action of type `"answer"` occurs in `maxSteps`
iterations, `answerQuestion` is invoked with `isFinal = true` after exactly
`maxSteps` increments; hence the step counter never exceeds the cap, and
with `maxSteps = 0` the body never runs and the final answer is produced
immediately on the untouched context. -/
theorem c1_step_cap_and_forced_final (maxSteps : Nat) (steps : Nat → StepInput)
    (loc : String) (msgs : List ChatMessage) :
    (runAgentLoop maxSteps steps loc msgs).finalCtx.getStep ≤ maxSteps
    ∧ (∀ ctx, ¬ ctx.getStep < maxSteps →
        runLoopFrom steps maxSteps ctx = LoopResult.answered ctx true)
    ∧ ((∀ i, i < maxSteps → stepContinues (steps i)) →
        (runAgentLoop maxSteps steps loc msgs).isFinalFlag = some true ∧
          (runAgentLoop maxSteps steps loc msgs).finalCtx.getStep = maxSteps)
    ∧ (maxSteps = 0 →
        runAgentLoop maxSteps steps loc msgs =
          LoopResult.answered (SystemContext.init loc msgs) true) := by
  refine ⟨?_, ?_, ?_, ?_⟩
  · exact runLoopFrom_cap steps maxSteps maxSteps _ (by omega)
      (by show (0 : Nat) ≤ maxSteps; omega)
  · intro ctx h
    exact runLoopFrom_stop steps maxSteps ctx h
  · intro hcont
    exact runLoopFrom_exhaust steps maxSteps maxSteps _ (by omega)
      (by show (0 : Nat) ≤ maxSteps; omega)
      (fun i _ hlt => hcont i hlt)
  · intro h
    subst h
    exact runLoopFrom_stop steps 0 _ (by omega)

/-- All-continue step oracle used to witness C1. -/
def c1ContinueStep : StepInput :=
  { rewriter := Except.ok ("plan", ["q1", "q2", "q3"]),
    queryOutcomes := [],
    evalOutcome := Except.ok
      { type := "continue", title := "t", reasoning := "r", feedback := "f" } }

/-- Witness for C1 at `maxSteps = 2` with an all-continue evaluator. -/
theorem c1_witness :
    (runAgentLoop 2 (fun _ => c1ContinueStep) "loc" []).isFinalFlag = some true ∧
      (runAgentLoop 2 (fun _ => c1ContinueStep) "loc" []).finalCtx.getStep = 2 :=
  (c1_step_cap_and_forced_final 2 (fun _ => c1ContinueStep) "loc" []).2.2.1
    (fun _ _ => ⟨⟨("plan", ["q1", "q2", "q3"]), rfl⟩,
      ⟨{ type := "continue", title := "t", reasoning := "r", feedback := "f" },
        rfl, by decide⟩⟩)

/-- C8: in a step whose rewriter and evaluator resolve, a failed query
(`none`, the per-query `catch` that returned `null`) does not abort the
other queries or the step: the step's contribution to `searchHistory` is
exactly the successful entries in input order (failures omitted), and the
loop proceeds to the evaluator, whose action alone decides continue /
answer. -/
theorem c8_fanout_failure_contained (steps : Nat → StepInput) (maxSteps : Nat)
    (ctx : SystemContext) (h : ctx.getStep < maxSteps)
    (p : String × List String) (hrw : (steps ctx.getStep).rewriter = Except.ok p)
    (a : NextActionT) (hev : (steps ctx.getStep).evalOutcome = Except.ok a) :
    (reportAll ctx (steps ctx.getStep).queryOutcomes).searchHistory =
      ctx.searchHistory ++ ((steps ctx.getStep).queryOutcomes).filterMap id
    ∧ runLoopFrom steps maxSteps ctx =
        (if a.type = "continue" then
          runLoopFrom steps maxSteps
            (reportAll ctx (steps ctx.getStep).queryOutcomes).incrementStep
        else if a.type = "answer" then
          LoopResult.answered (reportAll ctx (steps ctx.getStep).queryOutcomes) false
        else
          runLoopFrom steps maxSteps
            (reportAll ctx (steps ctx.getStep).queryOutcomes).incrementStep) := by
  refine ⟨reportAll_searchHistory ctx _, ?_⟩
  rw [runLoopFrom_go steps maxSteps ctx h, hrw, hev]

/-- Successful entry of the witness step for C8. -/
def c8Entry : SearchHistoryEntry :=
  { query := "q-ok",
    results := [{ date := "2024-01-01", title := "t", url := "https://ok.example",
                  snippet := "s", scrapedContent := "body", summary := some "sum" }] }

/-- Witness step for C8: two queries, the second one failed. -/
def c8Step : StepInput :=
  { rewriter := Except.ok ("plan", ["q-ok", "q-fails"]),
    queryOutcomes := [some c8Entry, none],
    evalOutcome := Except.ok
      { type := "answer", title := "t", reasoning := "r", feedback := "f" } }

/-- Witness for C8: one of two queries fails, the successful entry alone is
recorded and the evaluator's answer is reached. -/
theorem c8_witness :
    (reportAll (SystemContext.init "l" []) c8Step.queryOutcomes).searchHistory =
      (SystemContext.init "l" []).searchHistory ++ c8Step.queryOutcomes.filterMap id
    ∧ runLoopFrom (fun _ => c8Step) 1 (SystemContext.init "l" []) =
        (if ("answer" : String) = "continue" then
          runLoopFrom (fun _ => c8Step) 1
            (reportAll (SystemContext.init "l" []) c8Step.queryOutcomes).incrementStep
        else if ("answer" : String) = "answer" then
          LoopResult.answered (reportAll (SystemContext.init "l" []) c8Step.queryOutcomes) false
        else
          runLoopFrom (fun _ => c8Step) 1
            (reportAll (SystemContext.init "l" []) c8Step.queryOutcomes).incrementStep) :=
  c8_fanout_failure_contained (fun _ => c8Step) 1 (SystemContext.init "l" [])
    (by decide) ("plan", ["q-ok", "q-fails"]) rfl
    { type := "answer", title := "t", reasoning := "r", feedback := "f" } rfl

/-- A result that repeats one URL across two entries of the C2 run. -/
def c2DupResult : SearchResult :=
  { date := "2024-01-01", title := "t", url := "https://example.com/a",
    snippet := "s", scrapedContent := "" }

/-- Step oracle for the C2 counterexample: two successful queries whose
results share a URL. -/
def c2Step : StepInput :=
  { rewriter := Except.ok ("plan", ["q1", "q2"]),
    queryOutcomes :=
      [some { query := "q1", results := [c2DupResult] },
       some { query := "q2", results := [c2DupResult] }],
    evalOutcome := Except.ok
      { type := "answer", title := "t", reasoning := "r", feedback := "f" } }

/-- C2 counterexample: a run of the agent loop in which a URL returned for
the second query already appears in the first query's entry.  Nothing is
dropped — both copies are recorded — so the URLs across the aggregate
`searchHistory` of this request are not unique, contradicting the claimed
deduplication invariant. -/
theorem c2_counterexample :
    (runAgentLoop 1 (fun _ => c2Step) "loc" []).finalCtx.allUrls =
      ["https://example.com/a", "https://example.com/a"]
    ∧ ¬ List.Nodup (runAgentLoop 1 (fun _ => c2Step) "loc" []).finalCtx.allUrls := by
  have hrun : runAgentLoop 1 (fun _ => c2Step) "loc" [] =
      LoopResult.answered (reportAll (SystemContext.init "loc" []) c2Step.queryOutcomes)
        false := by
    show runLoopFrom (fun _ => c2Step) 1 (SystemContext.init "loc" []) = _
    rw [runLoopFrom_go _ _ _ (by decide)]
    rfl
  rw [hrun]
  exact ⟨rfl, by decide⟩

/-- C2 amended: `reportSearch` appends the new `SearchHistoryEntry` exactly
as produced by the fan-out; no URL deduplication against prior entries is
performed anywhere in the loop, so the same URL may appear in several
entries of one request's `searchHistory`. -/
theorem c2_amended_report_verbatim (ctx : SystemContext) (e : SearchHistoryEntry) :
    (ctx.reportSearch e).searchHistory = ctx.searchHistory ++ [e] := rfl

/-- All-continue step oracle used for the C9 counterexample. -/
def c9ContinueStep : StepInput :=
  { rewriter := Except.ok ("plan", ["q1", "q2", "q3"]),
    queryOutcomes := [],
    evalOutcome := Except.ok
      { type := "continue", title := "t", reasoning := "r", feedback := "f" } }

/-- C9 counterexample: there is no `AGENT_MAX_STEPS` configuration read
anywhere; the loop cap is the `maxSteps` parameter whose declared default
is `10`, the call site passes `10`, and with an evaluator that never
answers a default-configured request performs `10` loop iterations — not at
most `3` — before the forced final answer.  `shouldStop` likewise hardcodes
`10`: at step `3` it still reports `false`. -/
theorem c9_counterexample :
    runAgentLoopDefaultMaxSteps = 10
    ∧ streamFromDeepSearchMaxSteps = 10
    ∧ (runAgentLoop runAgentLoopDefaultMaxSteps (fun _ => c9ContinueStep)
        "loc" []).finalCtx.getStep = 10
    ∧ ((10 : Nat) ≠ 3)
    ∧ SystemContext.shouldStop
        { locationContext := "loc", messages := [], step := 3 } = false := by
  refine ⟨rfl, rfl, ?_, by decide, by decide⟩
  exact (runLoopFrom_exhaust (fun _ => c9ContinueStep) 10 10
    (SystemContext.init "loc" []) (by omega) (by show (0 : Nat) ≤ 10; omega)
    (fun _ _ _ => ⟨⟨("plan", ["q1", "q2", "q3"]), rfl⟩,
      ⟨{ type := "continue", title := "t", reasoning := "r", feedback := "f" },
        rfl, by decide⟩⟩)).2

/-- C9 amended: the loop's hard cap is the `maxSteps` parameter of
`runAgentLoop`, whose default — and the value passed by
`streamFromDeepSearch` — is `10`, so a default-configured request performs
at most `10` loop iterations before the forced final answer. -/
theorem c9_amended_default_cap (steps : Nat → StepInput) (loc : String)
    (msgs : List ChatMessage) :
    runAgentLoopDefaultMaxSteps = 10 ∧ streamFromDeepSearchMaxSteps = 10 ∧
      (runAgentLoop runAgentLoopDefaultMaxSteps steps loc msgs).finalCtx.getStep ≤
        runAgentLoopDefaultMaxSteps :=
  ⟨rfl, rfl, runLoopFrom_cap steps 10 10 _ (by omega) (by show (0 : Nat) ≤ 10; omega)⟩

/-- C3 amended: a URL with no successful scrape is recorded with
`scrapedContent = ""` and with `summary` left undefined — not the snippet.
`searchAndScrape` only calls the summarizer for non-empty scraped content,
so the snippet fallback inside `_summarizeURL` is never reached from this
pipeline. -/
theorem c3_amended_failed_scrape_no_summary (query today : String)
    (organic : List OrganicResult) (scrapes : List (String × Option String))
    (summarize : SearchResult → Except Unit String) (i : Nat) (r : OrganicResult)
    (hr : organic.get? i = some r)
    (hfail : processedScrapeResults scrapes r.link = none) :
    (searchAndScrape query today organic scrapes summarize).results.get? i =
      some { date := r.date.getD today, title := r.title, url := r.link,
             snippet := r.snippet, scrapedContent := "", summary := none } := by
  simp only [searchAndScrape, List.get?_map, hr, Option.map_some']
  simp [hfail, applySummary]

/-- The organic search hit used for C3. -/
def c3Organic : OrganicResult :=
  { title := "t", link := "https://fail.example", snippet := "s",
    date := some "2024-01-01" }

/-- C3 counterexample: the scrape of the only URL fails; the recorded
`SearchResult` has `scrapedContent = ""` but its `summary` is `none`, not
the snippet `"s"` the claim demands. -/
theorem c3_counterexample :
    (searchAndScrape "q" "2024-02-02" [c3Organic] [("https://fail.example", none)]
        (fun _ => Except.error ())).results =
      [{ date := "2024-01-01", title := "t", url := "https://fail.example",
         snippet := "s", scrapedContent := "", summary := none }]
    ∧ (none : Option String) ≠ some "s" := by
  exact ⟨rfl, by decide⟩

/-- Witness for C3 (amended) at the concrete failed-scrape input. -/
theorem c3_witness :
    (searchAndScrape "q" "2024-02-02" [c3Organic] [("https://fail.example", none)]
        (fun _ => Except.ok "llm-summary")).results.get? 0 =
      some { date := "2024-01-01", title := "t", url := "https://fail.example",
             snippet := "s", scrapedContent := "", summary := none } :=
  c3_amended_failed_scrape_no_summary "q" "2024-02-02" [c3Organic]
    [("https://fail.example", none)] (fun _ => Except.ok "llm-summary") 0 c3Organic
    rfl rfl

/-- C4: one call through `cacheWithRedis` — a hit (a non-empty cached
string under the derived key) returns the decoded stored value with zero
invocations of the wrapped function; a miss invokes it exactly once and
writes the serialized result with the 6-hour (21600-second) TTL, after
which a second identical call any time within the TTL returns the identical
value with zero invocations and an unchanged store.  `hround`/`hnonempty`
say the serializer round-trips and never produces the empty string (true of
`JSON.stringify`/`JSON.parse` on the cached result values). -/
theorem c4_cache_hit_miss {α : Type} (pre argsJson : String) (fn : Unit → α)
    (enc : α → String) (dec : String → α) (now : Nat) (store : KVStore)
    (hround : ∀ v, dec (enc v) = v) (hnonempty : ∀ v, enc v ≠ "") :
    CACHE_EXPIRY_SECONDS = 21600
    ∧ (∀ s, kvGet store now (cacheKey pre argsJson) = some s → s ≠ "" →
        cacheWithRedis pre argsJson fn enc dec now store =
          { value := dec s, store := store, invocations := 0 })
    ∧ (kvGet store now (cacheKey pre argsJson) = none →
        cacheWithRedis pre argsJson fn enc dec now store =
          { value := fn (),
            store := kvSetEx store now (cacheKey pre argsJson) (enc (fn ()))
              CACHE_EXPIRY_SECONDS,
            invocations := 1 }
        ∧ ∀ now2, now ≤ now2 → now2 < now + CACHE_EXPIRY_SECONDS →
            cacheWithRedis pre argsJson fn enc dec now2
              (kvSetEx store now (cacheKey pre argsJson) (enc (fn ()))
                CACHE_EXPIRY_SECONDS) =
              { value := fn (),
                store := kvSetEx store now (cacheKey pre argsJson) (enc (fn ()))
                  CACHE_EXPIRY_SECONDS,
                invocations := 0 }) := by
  refine ⟨rfl, ?_, ?_⟩
  · intro s hs hsne
    simp [cacheWithRedis, hs, hsne]
  · intro hmiss
    refine ⟨by simp [cacheWithRedis, hmiss], ?_⟩
    intro now2 _h1 h2
    have hget : kvGet (kvSetEx store now (cacheKey pre argsJson) (enc (fn ()))
        CACHE_EXPIRY_SECONDS) now2 (cacheKey pre argsJson) = some (enc (fn ())) := by
      unfold kvGet kvSetEx
      rw [List.find?_cons_of_pos _ (by simp)]
      simp [h2]
    simp [cacheWithRedis, hget, hnonempty (fn ()), hround]

/-- Witness for C4: a miss at time 0 writes through, and the identical call
at time 1 (within the TTL) returns the identical value without invoking
the wrapped function. -/
theorem c4_witness :
    cacheWithRedis "summarizeURL" "[1]" (fun _ => true)
        (fun b => cond b "t" "f") (fun s => s == "t") 0 [] =
      { value := true,
        store := kvSetEx [] 0 (cacheKey "summarizeURL" "[1]") "t" CACHE_EXPIRY_SECONDS,
        invocations := 1 }
    ∧ cacheWithRedis "summarizeURL" "[1]" (fun _ => true)
        (fun b => cond b "t" "f") (fun s => s == "t") 1
        (kvSetEx [] 0 (cacheKey "summarizeURL" "[1]") "t" CACHE_EXPIRY_SECONDS) =
      { value := true,
        store := kvSetEx [] 0 (cacheKey "summarizeURL" "[1]") "t" CACHE_EXPIRY_SECONDS,
        invocations := 0 } := by
  have h := (c4_cache_hit_miss "summarizeURL" "[1]" (fun _ => true)
    (fun b => cond b "t" "f") (fun s => s == "t") 0 []
    (by decide) (by decide)).2.2 rfl
  exact ⟨h.1, h.2 1 (by decide) (by decide)⟩

/-- C5 counterexample: when the store read rejects, the call through the
cache wrapper rejects with that very store error and the wrapped function
is invoked zero times — the call is not served and the error is propagated,
contrary to the claimed fail-open behavior. -/
theorem c5_counterexample :
    cacheWithRedisFallible (Except.error "redis connection refused")
        (fun _ => true) (fun s => s == "t") (Except.ok ()) =
      (Except.error "redis connection refused", 0)
    ∧ (Except.error "redis connection refused" : Except String Bool) ≠
        Except.ok true :=
  ⟨rfl, fun h => Except.noConfusion h⟩

/-- C5 amended: store errors are propagated, not swallowed: a rejected
`redis.get` rejects the wrapper before the wrapped function runs (zero
invocations), and a rejected `redis.set` rejects the wrapper after the
wrapped function ran once; caching is fail-closed, not fail-open. -/
theorem c5_amended_store_errors_propagate {α : Type} (e : String)
    (fn : Unit → α) (dec : String → α) (setOutcome : Except String Unit) :
    cacheWithRedisFallible (Except.error e) fn dec setOutcome = (Except.error e, 0)
    ∧ cacheWithRedisFallible (Except.ok none) fn dec (Except.error e) =
        (Except.error e, 1) :=
  ⟨rfl, rfl⟩

/-- C6 (code bug): the retry procedure's re-check count is not bounded by
`maxRetries`.  With `maxRetries = 3` (the route's configuration) and a
store that denies every re-check, the chain never returns `false` no matter
how many re-checks it is allowed to perform — every nested
`checkGlobalRateLimit` call builds a fresh closure whose `retryCount`
restarts at `0`, so the `retryCount >= maxRetries` guard never fires.
Conversely with `maxRetries = 0` the guard fires only after one re-check
has already happened.  The third conjunct states the same divergence
through the route's parameters (`maxRequests = 1`, `maxRetries = 3`, a
window counter stuck at 5): four denied re-checks and still no `false`. -/
theorem c6_retry_unbounded :
    (∀ n : Nat, retryAux 3 false 0 (List.replicate n false) = none)
    ∧ retryAux 0 false 0 [false] = some (false, 1)
    ∧ globalRateLimitRetry 1 3 5 (List.replicate 4 5) = none := by
  refine ⟨?_, rfl, by decide⟩
  intro n
  induction n with
  | zero => rfl
  | succ m ih =>
    simp [List.replicate_succ, retryAux, ih]

/-- C7 (code bug): with `maxRetries = DEFAULT_MAX_RETRIES = 3` and every
fetch failing, `jinaCrawlWebsite` performs exactly 3 fetch attempts
(within the claimed `maxRetries + 1` budget) but sleeps 1000 ms and then
2000 ms: the backoff delay is `min(500 * 2^attempts, 8000)` computed after
`attempts` was incremented, so the 500 ms first delay promised by the
claim — and by the code's own comment — never occurs. -/
theorem c7_backoff_trace :
    jinaCrawlWebsite DEFAULT_MAX_RETRIES (fun _ => false) =
      { attempts := 3, delays := [1000, 2000], success := false }
    ∧ ((1000 : Nat) ≠ 500)
    ∧ (∀ (mr : Nat) (f : Nat → Bool), (jinaCrawlWebsite mr f).attempts ≤ mr + 1) := by
  refine ⟨?_, by decide, ?_⟩
  · show jinaCrawlGo (fun _ => false) DEFAULT_MAX_RETRIES 0 [] = _
    rw [jinaCrawlGo_unfold _ _ _ _ (by decide),
      jinaCrawlGo_unfold _ _ _ _ (by decide),
      jinaCrawlGo_unfold _ _ _ _ (by decide)]
    norm_num [MIN_DELAY_MS, MAX_DELAY_MS, DEFAULT_MAX_RETRIES]
  · intro mr f
    exact le_trans
      (jinaCrawlGo_attempts_le f mr mr 0 [] (by omega) (by omega))
      (Nat.le_succ mr)

/-! ## Admin bypass lemmas -/

theorem find?_filter_ne (l : List (String × String)) (k1 k : String)
    (h : ¬ k = k1) :
    (l.filter (fun p => p.1 != k1)).find? (fun p => p.1 == k) =
      l.find? (fun p => p.1 == k) := by
  induction l with
  | nil => rfl
  | cons p l ih =>
    by_cases hp : p.1 = k1
    · have hb1 : (p.1 != k1) = false := by simp [hp]
      have hb2 : (p.1 == k) = false := by
        rw [beq_eq_false_iff_ne, hp]
        exact fun hkk => h hkk.symm
      simp [List.filter_cons, hb1, List.find?, hb2, ih]
    · have hb1 : (p.1 != k1) = true := by simpa using hp
      by_cases hpk : p.1 = k
      · have hb2 : (p.1 == k) = true := by simpa using hpk
        simp [List.filter_cons, hb1, List.find?, hb2]
      · have hb2 : (p.1 == k) = false := by
          rw [beq_eq_false_iff_ne]
          exact hpk
        simp [List.filter_cons, hb1, List.find?, hb2, ih]

theorem lookup_doSet_ne (st : RedisState) (k1 v k : String) (h : ¬ k = k1) :
    (st.doSet k1 v).lookup k = st.lookup k := by
  unfold RedisState.doSet RedisState.lookup
  simp only
  rw [List.find?_cons_of_neg _ (by simp; intro hkk; exact h hkk.symm),
    find?_filter_ne _ _ _ h]

theorem lookup_doSet_self (st : RedisState) (k1 v : String) :
    (st.doSet k1 v).lookup k1 = some v := by
  unfold RedisState.doSet RedisState.lookup
  rw [List.find?_cons_of_pos _ (by simp)]
  rfl

theorem getUserName_admin (dbName : Option String) (userId : String)
    (st : RedisState)
    (hadmin : resolvedUserName dbName userId st = some ADMIN_NAME) :
    ∃ st1 newOps, getUserName dbName userId st = Except.ok (ADMIN_NAME, st1)
      ∧ st1.ops = st.ops ++ newOps
      ∧ (∀ op ∈ newOps, op.opKey = userNameKey userId)
      ∧ (∀ k, ¬ k = userNameKey userId → st1.lookup k = st.lookup k)
      ∧ st1.lookup (userNameKey userId) = some ADMIN_NAME := by
  unfold resolvedUserName at hadmin
  unfold getUserName RedisState.doGet
  cases hc : st.lookup (userNameKey userId) with
  | some cached =>
    rw [hc] at hadmin
    have hcv : cached = ADMIN_NAME := by injection hadmin
    subst hcv
    refine ⟨_, [RedisOp.get (userNameKey userId)], rfl, rfl, ?_, ?_, ?_⟩
    · intro op hop
      simp at hop
      subst hop
      rfl
    · intro k _hk
      simp [RedisState.lookup]
    · simpa [RedisState.lookup] using hc
  | none =>
    rw [hc] at hadmin
    cases dbName with
    | none => exact absurd hadmin (by simp)
    | some userName =>
      have huv : userName = ADMIN_NAME := by injection hadmin
      subst huv
      refine ⟨_, [RedisOp.get (userNameKey userId),
        RedisOp.set (userNameKey userId) ADMIN_NAME], rfl, ?_, ?_, ?_, ?_⟩
      · simp [RedisState.doSet]
      · intro op hop
        simp at hop
        rcases hop with h1 | h1 <;> subst h1 <;> rfl
      · intro k hk
        rw [lookup_doSet_ne _ _ _ _ hk]
        simp [RedisState.lookup]
      · exact lookup_doSet_self _ _ _

theorem checkRateLimit_admin (dbName : Option String) (userId today : String)
    (st : RedisState)
    (hadmin : resolvedUserName dbName userId st = some ADMIN_NAME) :
    ∃ st1 newOps, checkRateLimit dbName userId today st = Except.ok
        ({ allowed := true, remainingRequests := DAILY_REQUEST_LIMIT,
           isAdmin := true }, st1)
      ∧ st1.ops = st.ops ++ newOps
      ∧ (∀ op ∈ newOps, op.opKey = userNameKey userId)
      ∧ (∀ k, ¬ k = userNameKey userId → st1.lookup k = st.lookup k)
      ∧ resolvedUserName dbName userId st1 = some ADMIN_NAME := by
  obtain ⟨st1, newOps, hget, hops, hkeys, hframe, hname⟩ :=
    getUserName_admin dbName userId st hadmin
  refine ⟨st1, newOps, ?_, hops, hkeys, hframe, ?_⟩
  · unfold checkRateLimit
    rw [hget]
    simp [isUserAdmin]
  · unfold resolvedUserName
    rw [hname]

theorem handleUserRateLimit_admin (dbName : Option String) (userId today : String)
    (endOfDaySecs : Nat) (st : RedisState)
    (hadmin : resolvedUserName dbName userId st = some ADMIN_NAME) :
    ∃ st1 newOps, handleUserRateLimit dbName userId today endOfDaySecs st =
        Except.ok (true, st1)
      ∧ st1.ops = st.ops ++ newOps
      ∧ (∀ op ∈ newOps, op.opKey = userNameKey userId)
      ∧ (∀ k, ¬ k = userNameKey userId → st1.lookup k = st.lookup k)
      ∧ resolvedUserName dbName userId st1 = some ADMIN_NAME := by
  obtain ⟨st1, newOps, hcheck, hops, hkeys, hframe, hname⟩ :=
    checkRateLimit_admin dbName userId today st hadmin
  refine ⟨st1, newOps, ?_, hops, hkeys, hframe, hname⟩
  unfold handleUserRateLimit
  rw [hcheck]
  simp

theorem handleRequests_admin (dbName : Option String) (userId today : String)
    (endOfDaySecs : Nat) :
    ∀ (n : Nat) (st : RedisState),
      resolvedUserName dbName userId st = some ADMIN_NAME →
      ∃ stN newOps, handleRequests dbName userId today endOfDaySecs n st =
          Except.ok stN
        ∧ stN.ops = st.ops ++ newOps
        ∧ (∀ op ∈ newOps, op.opKey = userNameKey userId)
        ∧ (∀ k, ¬ k = userNameKey userId → stN.lookup k = st.lookup k)
        ∧ resolvedUserName dbName userId stN = some ADMIN_NAME := by
  intro n
  induction n with
  | zero =>
    intro st hadmin
    exact ⟨st, [], rfl, by simp, by simp, fun _ _ => rfl, hadmin⟩
  | succ m ih =>
    intro st hadmin
    obtain ⟨st1, newOps1, h1, hops1, hkeys1, hframe1, hname1⟩ :=
      handleUserRateLimit_admin dbName userId today endOfDaySecs st hadmin
    obtain ⟨stN, newOps2, h2, hops2, hkeys2, hframe2, hname2⟩ := ih st1 hname1
    refine ⟨stN, newOps1 ++ newOps2, ?_, ?_, ?_, ?_, hname2⟩
    · unfold handleRequests
      rw [h1]
      exact h2
    · rw [hops2, hops1, List.append_assoc]
    · intro op hop
      rcases List.mem_append.mp hop with h | h
      · exact hkeys1 op h
      · exact hkeys2 op h
    · intro k hk
      rw [hframe2 k hk, hframe1 k hk]

/-- C10: for a user whose resolved name is the hardcoded admin name,
`checkRateLimit` returns `allowed = true` with `remainingRequests` equal to
the full daily limit (5) and touches no Redis key other than the user-name
cache — in particular it never reads the daily counter — and the request
handler skips `incrementRequestCount`, so any number `n` of admin requests
leaves the user's daily request counter unread, uncreated and unmodified.
(`hkey` records that the daily-counter key differs from the user-name cache
key, which holds for the concrete key formats.) -/
theorem c10_admin_frame (dbName : Option String) (userId today : String)
    (endOfDaySecs : Nat) (st : RedisState) (n : Nat)
    (hadmin : resolvedUserName dbName userId st = some ADMIN_NAME)
    (hkey : ¬ dailyRequestKey userId today = userNameKey userId) :
    DAILY_REQUEST_LIMIT = 5
    ∧ (∃ st1, checkRateLimit dbName userId today st = Except.ok
          ({ allowed := true, remainingRequests := DAILY_REQUEST_LIMIT,
             isAdmin := true }, st1)
        ∧ st1.lookup (dailyRequestKey userId today) =
            st.lookup (dailyRequestKey userId today)
        ∧ ∀ op ∈ st1.ops, op ∈ st.ops ∨ ¬ op.opKey = dailyRequestKey userId today)
    ∧ (∃ stN, handleRequests dbName userId today endOfDaySecs n st = Except.ok stN
        ∧ stN.lookup (dailyRequestKey userId today) =
            st.lookup (dailyRequestKey userId today)
        ∧ ∀ op ∈ stN.ops, op ∈ st.ops ∨ ¬ op.opKey = dailyRequestKey userId today) := by
  refine ⟨rfl, ?_, ?_⟩
  · obtain ⟨st1, newOps, hcheck, hops, hkeys, hframe, _⟩ :=
      checkRateLimit_admin dbName userId today st hadmin
    refine ⟨st1, hcheck, hframe _ hkey, ?_⟩
    intro op hop
    rw [hops] at hop
    rcases List.mem_append.mp hop with h | h
    · exact Or.inl h
    · refine Or.inr ?_
      rw [hkeys op h]
      intro hbad
      exact hkey hbad.symm
  · obtain ⟨stN, newOps, hrun, hops, hkeys, hframe, _⟩ :=
      handleRequests_admin dbName userId today endOfDaySecs n st hadmin
    refine ⟨stN, hrun, hframe _ hkey, ?_⟩
    intro op hop
    rw [hops] at hop
    rcases List.mem_append.mp hop with h | h
    · exact Or.inl h
    · refine Or.inr ?_
      rw [hkeys op h]
      intro hbad
      exact hkey hbad.symm

/-- Concrete store for the C10 witness: the admin's name is cached. -/
def c10St : RedisState :=
  { store := [("user:name:u1", "sefyundercover")], ops := [] }

/-- Witness for C10: three requests by the cached admin user `u1`. -/
theorem c10_witness :
    DAILY_REQUEST_LIMIT = 5
    ∧ (∃ st1, checkRateLimit (some "sefyundercover") "u1" "2024-01-01" c10St =
          Except.ok
            ({ allowed := true, remainingRequests := DAILY_REQUEST_LIMIT,
               isAdmin := true }, st1)
        ∧ st1.lookup (dailyRequestKey "u1" "2024-01-01") =
            c10St.lookup (dailyRequestKey "u1" "2024-01-01")
        ∧ ∀ op ∈ st1.ops, op ∈ c10St.ops ∨
            ¬ op.opKey = dailyRequestKey "u1" "2024-01-01")
    ∧ (∃ stN, handleRequests (some "sefyundercover") "u1" "2024-01-01" 86400 3 c10St =
          Except.ok stN
        ∧ stN.lookup (dailyRequestKey "u1" "2024-01-01") =
            c10St.lookup (dailyRequestKey "u1" "2024-01-01")
        ∧ ∀ op ∈ stN.ops, op ∈ c10St.ops ∨
            ¬ op.opKey = dailyRequestKey "u1" "2024-01-01") :=
  c10_admin_frame (some "sefyundercover") "u1" "2024-01-01" 86400 c10St 3
    (by decide) (by decide)
